import Mathlib

/-!
Verification of the lidco orchestration engine against its specification.

This file gives a shallow embedding, in Lean, of the core control-plane code
of the lidco repository: the conversation pruner
(`src/lidco/core/conversation_pruner.py`), the tool dispatch path
(`src/lidco/tools/base.py`, `src/lidco/agents/base.py`), the retry policy
(`src/lidco/llm/retry.py`), the model router (`src/lidco/llm/router.py`),
the per-agent ReAct loop (`src/lidco/agents/base.py`) and the workflow graph
(`src/lidco/agents/graph.py`).  Python functions are translated into
executable Lean definitions; exceptions are modelled with `Except`, async
generators with explicit chunk lists, and external collaborators (the LLM,
the tools, the user-facing handlers) as function-valued parameters.
-/

namespace Lidco

/-! ## Core data model (`src/lidco/llm/base.py`, `src/lidco/tools/base.py`) -/

/-- An OpenAI-style tool-call record as carried on assistant messages:
`{"id": ..., "type": "function", "function": {"name": ..., "arguments": ...}}`.
The `arguments` payload is the raw JSON string, opaque until parsed. -/
structure ToolCallRaw where
  id : String
  name : String
  args : String
deriving Repr, DecidableEq

/-- A conversation message (`Message` dataclass in `llm/base.py`): role,
text content, optional tool calls, optional tool-call id and tool name. -/
structure Message where
  role : String
  content : String
  tool_calls : List ToolCallRaw := []
  tool_call_id : Option String := none
  name : Option String := none
deriving Repr, DecidableEq

/-- Result of a tool execution (`ToolResult` dataclass in `tools/base.py`). -/
structure ToolResult where
  output : String
  success : Bool := true
  error : Option String := none
  metadata : List (String × String) := []
deriving Repr, DecidableEq

/-- Default message used for list lookups with `List.getD`. -/
def dfltMsg : Message := { role := "", content := "" }

/-- Python `x or dflt` applied to an optional string field: `None` and the
empty string are falsy and replaced by the default. -/
def pyOrName (n : Option String) (dflt : String) : String :=
  match n with
  | some s => if s = "" then dflt else s
  | none => dflt

/-- Number of newline characters in a string (Python `content.count("\n")`). -/
def countNewlines (s : String) : Nat :=
  (s.toList.filter (fun c => c = '\n')).length

/-! ## Conversation pruner (`src/lidco/core/conversation_pruner.py`) -/

/-- Embedding of `_summarize_tool_message`: replace a tool result with a
compact one-line summary.  The rebuilt message omits `tool_calls` exactly as
the Python constructor call does (it relies on the dataclass default). -/
def summarizeToolMessage (msg : Message) : Message :=
  let toolName := pyOrName msg.name "tool"
  let lineCount := countNewlines msg.content + 1
  let firstLine := ((msg.content.splitOn "\n").headD "").take 80
  let summary :=
    "[" ++ toolName ++ ": " ++ toString lineCount ++ " lines | " ++ firstLine ++ "...]"
  { role := msg.role, content := summary, tool_calls := [],
    tool_call_id := msg.tool_call_id, name := msg.name }

/-- Embedding of `_trim_assistant_message`: trim an assistant message to the
first `maxChars` characters, appending a marker. -/
def trimAssistantMessage (msg : Message) (maxChars : Nat := 200) : Message :=
  if msg.content.length ≤ maxChars then msg
  else { msg with content := msg.content.take maxChars ++ "... (trimmed)" }

/-- Loop body of `_find_keep_boundary`: walk indices `i, i-1, ..., 1`
(the Python `range(len(messages) - 1, 0, -1)`), counting assistant messages;
return the index at which the count reaches `keepRecent`, else 1. -/
def findKeepBoundaryGo (messages : List Message) (keepRecent : Nat) :
    Nat → Nat → Nat
  | _, 0 => 1
  | count, i + 1 =>
    if (messages.getD (i + 1) dfltMsg).role = "assistant" then
      if keepRecent ≤ count + 1 then i + 1
      else findKeepBoundaryGo messages keepRecent (count + 1) i
    else findKeepBoundaryGo messages keepRecent count i

/-- Embedding of `_find_keep_boundary`. -/
def findKeepBoundary (messages : List Message) (keepRecent : Nat) : Nat :=
  findKeepBoundaryGo messages keepRecent 0 (messages.length - 1)

/-- Per-index transformation applied by the `for i, msg in enumerate(messages)`
loop of `prune_conversation`. -/
def pruneStep (boundary : Nat) (i : Nat) (msg : Message) : Message :=
  if i = 0 then msg
  else if boundary ≤ i then msg
  else if msg.role = "tool" then summarizeToolMessage msg
  else if msg.role = "assistant" then trimAssistantMessage msg 200
  else msg

/-- The enumerate loop of `prune_conversation`, starting from index `i`. -/
def pruneMap (boundary : Nat) : Nat → List Message → List Message
  | _, [] => []
  | i, msg :: rest => pruneStep boundary i msg :: pruneMap boundary (i + 1) rest

/-- Total character count of a conversation
(`sum(len(m.content) for m in messages)`). -/
def totalChars (messages : List Message) : Nat :=
  (messages.map (fun m => m.content.length)).sum

/-- Embedding of `prune_conversation`. -/
def pruneConversation (messages : List Message) (maxChars : Nat := 80000)
    (keepRecentExchanges : Nat := 3) : List Message :=
  if messages = [] then []
  else if totalChars messages ≤ maxChars then messages
  else pruneMap (findKeepBoundary messages keepRecentExchanges) 0 messages

theorem pruneMap_length (boundary : Nat) :
    ∀ (i : Nat) (l : List Message), (pruneMap boundary i l).length = l.length := by
  intro i l
  induction l generalizing i with
  | nil => rfl
  | cons m rest ih => simp [pruneMap, ih]

theorem pruneMap_getD_of_le (boundary : Nat) :
    ∀ (l : List Message) (i j : Nat), boundary ≤ i + j →
      (pruneMap boundary i l).getD j dfltMsg = l.getD j dfltMsg := by
  intro l
  induction l with
  | nil => intro i j _; rfl
  | cons m rest ih =>
    intro i j hb
    cases j with
    | zero =>
      simp only [Nat.add_zero] at hb
      by_cases hi : i = 0
      · simp [pruneMap, pruneStep, hi]
      · simp [pruneMap, pruneStep, hi, hb]
    | succ j =>
      have hb' : boundary ≤ (i + 1) + j := by omega
      simp only [pruneMap, List.getD_cons_succ]
      exact ih (i + 1) j hb'

theorem pruneMap_head (boundary : Nat) (m : Message) (rest : List Message) :
    (pruneMap boundary 0 (m :: rest)).headD dfltMsg = m := by
  simp [pruneMap, pruneStep]

/-- Example conversation with no assistant messages: the keep boundary
degenerates to 1 and nothing is pruned. -/
def msgsNoAssistant : List Message :=
  [ { role := "system", content := "AAAAAAAAAAAAAAAAAAAA" },
    { role := "user", content := "B" } ]

/-- C4 counterexample.  The claim asserts that for every non-empty message
list whose total character count exceeds the budget, `prune_conversation`
returns a sequence of strictly smaller total character count.  On the input
`[system(20 chars), user(1 char)]` with `max_chars = 10` the total (21)
exceeds the budget, yet the function returns the list unchanged (there are
no assistant messages, so `_find_keep_boundary` returns 1 and every index is
kept in full), so the total character count does not decrease. -/
theorem C4_pruneConversation_not_strictly_smaller :
    msgsNoAssistant ≠ [] ∧
    10 < totalChars msgsNoAssistant ∧
    pruneConversation msgsNoAssistant 10 3 = msgsNoAssistant ∧
    ¬ totalChars (pruneConversation msgsNoAssistant 10 3) <
        totalChars msgsNoAssistant := by
  refine ⟨by decide, by decide, by decide, by decide⟩

/-- C4, amended.  For every non-empty message list whose total character
count exceeds `maxChars`, `prune_conversation` (1) still starts with the
original first (system) message unchanged, (3) keeps every message from the
keep boundary (the start of the most recent `keepRecentExchanges`
assistant+tool exchange groups) verbatim, and returns a list of the same
length in which only older tool/assistant messages are replaced by summaries
or trimmed copies; a strictly smaller total character count is not
guaranteed. -/
theorem C4_pruneConversation_amended (messages : List Message)
    (maxChars keep : Nat) (hne : messages ≠ [])
    (hbig : maxChars < totalChars messages) :
    (pruneConversation messages maxChars keep).length = messages.length ∧
    (pruneConversation messages maxChars keep).headD dfltMsg =
      messages.headD dfltMsg ∧
    ∀ i, findKeepBoundary messages keep ≤ i →
      (pruneConversation messages maxChars keep).getD i dfltMsg =
        messages.getD i dfltMsg := by
  have hle : ¬ totalChars messages ≤ maxChars := Nat.not_le.mpr hbig
  unfold pruneConversation
  rw [if_neg hne, if_neg hle]
  refine ⟨pruneMap_length _ 0 messages, ?_, ?_⟩
  · match messages, hne with
    | m :: rest, _ => exact pruneMap_head _ m rest
  · intro i hi
    exact pruneMap_getD_of_le _ messages 0 i (by omega)

/-- C4 amended, witness: the amended theorem applied to a concrete
ten-message conversation exceeding a 100-character budget. -/
def msgsC4W : List Message :=
  [ { role := "system", content := "You are an agent." },
    { role := "user", content := "Read the files." },
    { role := "assistant", content := "Reading a." },
    { role := "tool", content := String.mk (List.replicate 40 'x'),
      tool_call_id := some "c1", name := some "file_read" },
    { role := "assistant", content := "Reading b." },
    { role := "tool", content := String.mk (List.replicate 40 'y'),
      tool_call_id := some "c2", name := some "file_read" },
    { role := "assistant", content := "Reading c." },
    { role := "tool", content := String.mk (List.replicate 40 'z'),
      tool_call_id := some "c3", name := some "file_read" },
    { role := "assistant", content := "Reading d." },
    { role := "tool", content := String.mk (List.replicate 40 'w'),
      tool_call_id := some "c4", name := some "file_read" } ]

theorem C4_pruneConversation_amended_witness :
    (pruneConversation msgsC4W 100 3).length = msgsC4W.length ∧
    (pruneConversation msgsC4W 100 3).headD dfltMsg = msgsC4W.headD dfltMsg ∧
    (pruneConversation msgsC4W 100 3).getD 4 dfltMsg = msgsC4W.getD 4 dfltMsg :=
  ⟨(C4_pruneConversation_amended msgsC4W 100 3 (by decide) (by decide)).1,
   (C4_pruneConversation_amended msgsC4W 100 3 (by decide) (by decide)).2.1,
   (C4_pruneConversation_amended msgsC4W 100 3 (by decide) (by decide)).2.2 4
     (by decide)⟩

/-! ## Tool execution and the clarification signal
(`src/lidco/tools/base.py`, `src/lidco/tools/ask_user.py`,
`src/lidco/agents/base.py` `BaseAgent._execute_tool`) -/

/-- Payload of the `ClarificationNeeded` exception
(`src/lidco/core/clarification.py`): question, options, context. -/
structure Clarification where
  question : String
  options : List String
  context : String
deriving Repr, DecidableEq

/-- An exception escaping a tool body.  `ClarificationNeeded` is declared in
the source as `class ClarificationNeeded(Exception)`, so it is an ordinary
`Exception` subclass; `other` covers every other exception, identified by
its message. -/
inductive ToolExn where
  | clarification (c : Clarification)
  | other (msg : String)
deriving Repr, DecidableEq

/-- Python `str(e)` on a tool exception.  `ClarificationNeeded.__str__`
returns the question. -/
def strOfToolExn : ToolExn → String
  | .clarification c => c.question
  | .other msg => msg

/-- Embedding of `BaseTool.execute`: run `_run` and convert any `Exception`
into a failed `ToolResult`.  Because `ClarificationNeeded` subclasses
`Exception`, the catch-all converts it as well — `execute` never raises. -/
def baseToolExecute (run : Except ToolExn ToolResult) : Except ToolExn ToolResult :=
  match run with
  | .ok r => .ok r
  | .error e => .ok { output := "", success := false, error := some (strOfToolExn e) }

/-- Option parsing of `AskUserTool._run`:
`[opt.strip() for opt in options_str.split(",") if opt.strip()]` when the
options string is non-empty. -/
def parseOptionsAskUser (s : String) : List String :=
  if s = "" then []
  else ((s.splitOn ",").map String.trim).filter (fun o => o ≠ "")

/-- Embedding of `AskUserTool._run`: raise `ClarificationNeeded` carrying the
question, parsed options and context (or fail when the question is empty). -/
def askUserRun (question optionsStr context : String) : Except ToolExn ToolResult :=
  if question = "" then
    .ok { output := "", success := false, error := some "Question is required." }
  else
    .error (.clarification ⟨question, parseOptionsAskUser optionsStr, context⟩)

/-- Embedding of `BaseAgent._execute_tool`.  `toolKnown` models the registry
lookup; `permissionVerdict` is `none` when no permission handler is set and
`some b` for the handler's verdict; `clarHandler` is the registered
clarification handler (which may itself raise, modelled by `Except`);
`run` is the outcome of the tool body `_run`.  The dispatch calls
`tool.execute` (that is, `baseToolExecute run`) and intercepts a
`ClarificationNeeded` escaping it; any other exception escaping `execute`
propagates (`.error`). -/
def executeToolDispatch (toolKnown : Bool) (toolName : String)
    (permissionVerdict : Option Bool)
    (clarHandler : Option (Clarification → Except String String))
    (run : Except ToolExn ToolResult) : Except String ToolResult :=
  if !toolKnown then
    .ok { output := "", success := false, error := some ("Unknown tool: " ++ toolName) }
  else
    match permissionVerdict with
    | some false =>
      .ok { output := "", success := false, error := some "Operation denied by user" }
    | _ =>
      match baseToolExecute run with
      | .ok r => .ok r
      | .error (.clarification c) =>
        match clarHandler with
        | some h =>
          match h c with
          | .ok answer =>
            .ok { output := "User answered: " ++ answer, success := true,
                  metadata := [("clarification_answer", answer)] }
          | .error e =>
            .ok { output := "", success := false,
                  error := some ("Clarification handler failed: " ++ e) }
        | none =>
          .ok { output := "", success := false,
                error := some "No clarification handler available to ask the user." }
      | .error (.other e) => .error e

/-- Clarification handler used in the C1 evaluation: always answers
"PostgreSQL". -/
def c1Handler : Clarification → Except String String := fun _ => .ok "PostgreSQL"

/-- C1.  Evaluation of the dispatch path at the failing input: the `ask_user`
tool raises `ClarificationNeeded("Which DB?", ...)`, a clarification handler
is registered, yet the dispatch returns `success = false` with
`error = "Which DB?"` and the handler's answer appears nowhere — because
`BaseTool.execute`'s catch-all converts the `ClarificationNeeded` (an
`Exception` subclass) into a failed `ToolResult` before
`BaseAgent._execute_tool`'s interceptor can see it.  The second conjunct
records the part of the claim the code does satisfy: an ordinary exception
becomes `ToolResult{success=false}`. -/
theorem C1_clarification_signal_swallowed :
    executeToolDispatch true "ask_user" none (some c1Handler)
        (askUserRun "Which DB?" "PostgreSQL, MySQL, SQLite" "Need to choose") =
      .ok { output := "", success := false, error := some "Which DB?" } ∧
    (∀ msg, executeToolDispatch true "ask_user" none (some c1Handler)
        (.error (.other msg)) =
      .ok { output := "", success := false, error := some msg }) := by
  exact ⟨rfl, fun msg => rfl⟩

/-! ## Retry policy (`src/lidco/llm/retry.py`) -/

/-- Failure kinds raised by the transport.  The first five mirror the litellm
exception classes listed in `RETRYABLE_EXCEPTIONS`; `badRequest` stands for
any exception outside that tuple. -/
inductive LLMErr where
  | rateLimit (msg : String)
  | serviceUnavailable (msg : String)
  | timeoutErr (msg : String)
  | connection (msg : String)
  | internalServer (msg : String)
  | badRequest (msg : String)
deriving Repr, DecidableEq

/-- Membership in the default `RETRYABLE_EXCEPTIONS` tuple. -/
def defaultRetryable : LLMErr → Bool
  | .badRequest _ => false
  | _ => true

/-- Embedding of `RetryConfig`.  Delays are exact rationals; `retryOn`
models the `retryable_exceptions` tuple as a predicate. -/
structure RetryConfig where
  maxRetries : Nat := 3
  baseDelay : ℚ := 1
  maxDelay : ℚ := 60
  jitter : Bool := true
  retryOn : LLMErr → Bool := defaultRetryable

/-- Sleep computed before retry number `attempt + 1`:
`min(base_delay * 2 ** attempt, max_delay)`, multiplied by the jitter factor
(the value drawn from `random.uniform(0.5, 1.5)`) when jitter is enabled. -/
def retryDelay (cfg : RetryConfig) (attempt : Nat) (factor : ℚ) : ℚ :=
  let d := min (cfg.baseDelay * 2 ^ attempt) cfg.maxDelay
  if cfg.jitter then d * factor else d

/-- Loop of `with_retry` from attempt index `attempt` with `remaining`
further attempts allowed.  The operation is modelled as `f : Nat → Except`
(outcome per attempt index) and the random jitter draws as the oracle
`factors`.  Returns the final outcome together with the list of sleeps
performed. -/
def withRetryGo (cfg : RetryConfig) (f : Nat → Except LLMErr α) (factors : Nat → ℚ) :
    Nat → Nat → Except LLMErr α × List ℚ
  | attempt, remaining =>
    match f attempt with
    | .ok v => (.ok v, [])
    | .error e =>
      if cfg.retryOn e then
        match remaining with
        | 0 => (.error e, [])
        | r + 1 =>
          let d := retryDelay cfg attempt (factors attempt)
          let rest := withRetryGo cfg f factors (attempt + 1) r
          (rest.1, d :: rest.2)
      else (.error e, [])

/-- Embedding of `with_retry`: `for attempt in range(max_retries + 1)`. -/
def withRetry (cfg : RetryConfig) (f : Nat → Except LLMErr α) (factors : Nat → ℚ) :
    Except LLMErr α × List ℚ :=
  withRetryGo cfg f factors 0 cfg.maxRetries

theorem withRetryGo_ok (cfg : RetryConfig) (f : Nat → Except LLMErr α)
    (factors : Nat → ℚ) (v : α) :
    ∀ (k attempt remaining : Nat), k ≤ remaining →
      (∀ j, j < k → ∃ e, f (attempt + j) = .error e ∧ cfg.retryOn e = true) →
      f (attempt + k) = .ok v →
      withRetryGo cfg f factors attempt remaining =
        (.ok v, (List.range k).map
          (fun j => retryDelay cfg (attempt + j) (factors (attempt + j)))) := by
  intro k
  induction k with
  | zero =>
    intro attempt remaining _ _ hok
    rw [withRetryGo]
    simp only [Nat.add_zero] at hok
    rw [hok]
    simp
  | succ k ih =>
    intro attempt remaining hk hfail hok
    obtain ⟨r, rfl⟩ : ∃ r, remaining = r + 1 := ⟨remaining - 1, by omega⟩
    obtain ⟨e, he, hr⟩ := hfail 0 (Nat.succ_pos k)
    rw [withRetryGo]
    simp only [Nat.add_zero] at he
    rw [he]
    simp only [hr, if_true]
    have hfail' : ∀ j, j < k → ∃ e, f (attempt + 1 + j) = .error e ∧ cfg.retryOn e = true := by
      intro j hj
      have := hfail (j + 1) (by omega)
      simpa [Nat.add_comm, Nat.add_left_comm, Nat.add_assoc] using this
    have hok' : f (attempt + 1 + k) = .ok v := by
      have : attempt + 1 + k = attempt + (k + 1) := by omega
      rw [this]; exact hok
    rw [ih (attempt + 1) r (by omega) hfail' hok']
    simp only [List.range_succ_eq_map, List.map_cons, List.map_map]
    refine congrArg _ ?_
    refine congrArg _ ?_
    refine congrArg (fun g => List.map g (List.range k)) ?_
    funext j
    simp [Function.comp, Nat.add_comm, Nat.add_left_comm, Nat.add_assoc]

theorem withRetryGo_exhaust (cfg : RetryConfig) (f : Nat → Except LLMErr α)
    (factors : Nat → ℚ) :
    ∀ (remaining attempt : Nat),
      (∀ j, j < remaining → ∃ e, f (attempt + j) = .error e ∧ cfg.retryOn e = true) →
      ∀ eLast, f (attempt + remaining) = .error eLast → cfg.retryOn eLast = true →
      withRetryGo cfg f factors attempt remaining =
        (.error eLast, (List.range remaining).map
          (fun j => retryDelay cfg (attempt + j) (factors (attempt + j)))) := by
  intro remaining
  induction remaining with
  | zero =>
    intro attempt _ eLast hlast hrl
    rw [withRetryGo]
    simp only [Nat.add_zero] at hlast
    rw [hlast]
    simp [hrl]
  | succ r ih =>
    intro attempt hfail eLast hlast hrl
    obtain ⟨e, he, hr⟩ := hfail 0 (Nat.succ_pos r)
    rw [withRetryGo]
    simp only [Nat.add_zero] at he
    rw [he]
    simp only [hr, if_true]
    have hfail' : ∀ j, j < r → ∃ e, f (attempt + 1 + j) = .error e ∧ cfg.retryOn e = true := by
      intro j hj
      have := hfail (j + 1) (by omega)
      simpa [Nat.add_comm, Nat.add_left_comm, Nat.add_assoc] using this
    have hlast' : f (attempt + 1 + r) = .error eLast := by
      have : attempt + 1 + r = attempt + (r + 1) := by omega
      rw [this]; exact hlast
    rw [ih (attempt + 1) hfail' eLast hlast' hrl]
    simp only [List.range_succ_eq_map, List.map_cons, List.map_map]
    refine congrArg _ ?_
    refine congrArg _ ?_
    refine congrArg (fun g => List.map g (List.range r)) ?_
    funext j
    simp [Function.comp, Nat.add_comm, Nat.add_left_comm, Nat.add_assoc]

/-- C8.  `with_retry`: (i) a failure whose kind is not in the retryable set
is re-raised immediately, with no sleep and no further attempt; (ii) when
jitter is enabled the sleep before retry `k + 1` is
`min(base_delay * 2 ^ k, max_delay)` scaled by the drawn factor, and without
jitter it is the unscaled minimum; (iii) if the first `k` attempts fail with
retryable errors and attempt `k` (within the budget) succeeds, the call
returns that success after exactly the sleeps `retryDelay 0 .. retryDelay
(k-1)`; (iv) when every one of the `maxRetries + 1` attempts fails with a
retryable error, the failure of the last attempt is re-raised. -/
theorem C8_with_retry_backoff (cfg : RetryConfig) (f : Nat → Except LLMErr α)
    (factors : Nat → ℚ) :
    (∀ e, f 0 = .error e → cfg.retryOn e = false →
      withRetry cfg f factors = (.error e, [])) ∧
    (∀ k factor, retryDelay cfg k factor =
      (if cfg.jitter then min (cfg.baseDelay * 2 ^ k) cfg.maxDelay * factor
       else min (cfg.baseDelay * 2 ^ k) cfg.maxDelay)) ∧
    (∀ k v, k ≤ cfg.maxRetries →
      (∀ j, j < k → ∃ e, f j = .error e ∧ cfg.retryOn e = true) →
      f k = .ok v →
      withRetry cfg f factors =
        (.ok v, (List.range k).map (fun j => retryDelay cfg j (factors j)))) ∧
    (∀ eLast,
      (∀ j, j < cfg.maxRetries → ∃ e, f j = .error e ∧ cfg.retryOn e = true) →
      f cfg.maxRetries = .error eLast → cfg.retryOn eLast = true →
      withRetry cfg f factors =
        (.error eLast,
          (List.range cfg.maxRetries).map (fun j => retryDelay cfg j (factors j)))) := by
  refine ⟨?_, ?_, ?_, ?_⟩
  · intro e he hnr
    rw [withRetry, withRetryGo, he]
    simp [hnr]
  · intro k factor
    rw [retryDelay]
  · intro k v hk hfail hok
    have := withRetryGo_ok cfg f factors v k 0 cfg.maxRetries hk
      (by simpa using hfail) (by simpa using hok)
    simpa [withRetry] using this
  · intro eLast hfail hlast hrl
    have := withRetryGo_exhaust cfg f factors cfg.maxRetries 0
      (by simpa using hfail) eLast (by simpa using hlast) hrl
    simpa [withRetry] using this

/-- Behavior used by the C8 witness: rate-limited on attempts 0 and 1,
succeeds on attempt 2. -/
def c8Behavior : Nat → Except LLMErr Nat
  | 0 => .error (.rateLimit "rl0")
  | 1 => .error (.rateLimit "rl1")
  | _ => .ok 42

/-- C8 witness: the theorem applied at a concrete configuration
(maxRetries 3, base 1, max 60, jitter on, unit jitter draws) and the
concrete behavior failing twice then succeeding. -/
theorem C8_with_retry_backoff_witness :
    withRetry { maxRetries := 3 } c8Behavior (fun _ => 1) =
      (.ok 42, [1, 2]) := by
  have h := (C8_with_retry_backoff { maxRetries := 3 } c8Behavior (fun _ => 1)).2.2.1
    2 42 (by decide)
    (by
      intro j hj
      interval_cases j
      · exact ⟨.rateLimit "rl0", rfl, rfl⟩
      · exact ⟨.rateLimit "rl1", rfl, rfl⟩)
    rfl
  rw [h]
  norm_num [retryDelay, List.range_succ]

/-! ## Provider and model router (`src/lidco/llm/litellm_provider.py`,
`src/lidco/llm/router.py`) -/

/-- Response from an LLM (`LLMResponse` dataclass in `llm/base.py`).  The
usage dict is flattened into its three counters. -/
structure LLMResponse where
  content : String
  model : String
  tool_calls : List ToolCallRaw := []
  promptTokens : Nat := 0
  completionTokens : Nat := 0
  totalTokens : Nat := 0
  finish_reason : String := "stop"
deriving Repr, DecidableEq

/-- Embedding of `LiteLLMProvider.complete` for one model: run the
underlying transport call (modelled per model and attempt index by `behave`)
through `with_retry`.  Returns the outcome together with the number of
transport attempts made (sleeps + 1). -/
def providerComplete (cfg : RetryConfig)
    (behave : String → Nat → Except LLMErr LLMResponse)
    (factors : Nat → ℚ) (model : String) : Except LLMErr LLMResponse × Nat :=
  let r := withRetry cfg (behave model) factors
  (r.1, r.2.length + 1)

/-- Aggregate failure raised by the router when the whole chain is
exhausted: `RuntimeError(f"All models failed. Last error: {last_error}")`,
carrying the last per-candidate failure. -/
inductive RouterErr where
  | allFailed (last : Option LLMErr)
deriving Repr, DecidableEq

/-- Candidate loop of `ModelRouter.complete`: try each model of the chain
through the provider (`pc`), return the first success, catch every failure
and remember it as `last_error`, and raise the aggregate error when the
chain is exhausted.  Also returns the trace of provider invocations as
(model, transport attempts) pairs, in invocation order. -/
def routerCompleteGo (pc : String → Except LLMErr LLMResponse × Nat) :
    List String → Option LLMErr →
      Except RouterErr LLMResponse × List (String × Nat)
  | [], lastErr => (.error (.allFailed lastErr), [])
  | c :: rest, lastErr =>
    match pc c with
    | (.ok r, n) => (.ok r, [(c, n)])
    | (.error e, n) =>
      let res := routerCompleteGo pc rest (some e)
      (res.1, (c, n) :: res.2)

/-- Embedding of `ModelRouter.complete` over an already-resolved fallback
chain. -/
def routerComplete (cfg : RetryConfig)
    (behave : String → Nat → Except LLMErr LLMResponse)
    (factors : Nat → ℚ) (chain : List String) :
    Except RouterErr LLMResponse × List (String × Nat) :=
  routerCompleteGo (providerComplete cfg behave factors) chain none

theorem providerComplete_exhaust (cfg : RetryConfig)
    (behave : String → Nat → Except LLMErr LLMResponse) (factors : Nat → ℚ)
    (m : String) (e : Nat → LLMErr)
    (hfail : ∀ k, behave m k = .error (e k))
    (hretry : ∀ k, cfg.retryOn (e k) = true) :
    providerComplete cfg behave factors m =
      (.error (e cfg.maxRetries), cfg.maxRetries + 1) := by
  have h := withRetryGo_exhaust cfg (behave m) factors cfg.maxRetries 0
    (by intro j _; exact ⟨e j, by simpa using hfail j, hretry j⟩)
    (e cfg.maxRetries) (by simpa using hfail cfg.maxRetries)
    (hretry cfg.maxRetries)
  simp [providerComplete, withRetry, h]

theorem providerComplete_first_ok (cfg : RetryConfig)
    (behave : String → Nat → Except LLMErr LLMResponse) (factors : Nat → ℚ)
    (m : String) (r : LLMResponse) (hok : behave m 0 = .ok r) :
    providerComplete cfg behave factors m = (.ok r, 1) := by
  have h := withRetryGo_ok cfg (behave m) factors r 0 0 cfg.maxRetries
    (Nat.zero_le _) (by intro j hj; omega) (by simpa using hok)
  simp [providerComplete, withRetry, h]

/-- C7.  For a fallback chain `[a, b, c]` where models `a` and `b` fail with
retryable errors on every attempt and `c` succeeds immediately,
`ModelRouter.complete` returns `c`'s response, and the provider's `complete`
is invoked for `a` first and then `b` (in that order), each exhausting its
full retry budget of `maxRetries + 1` transport attempts before the router
advances; if instead every candidate (including `c`) fails on every attempt,
the router raises the aggregate error referencing the last failure. -/
theorem C7_router_complete_fallback_chain (cfg : RetryConfig)
    (behave : String → Nat → Except LLMErr LLMResponse) (factors : Nat → ℚ)
    (a b c : String) (eA eB : Nat → LLMErr)
    (hA : ∀ k, behave a k = .error (eA k)) (hAr : ∀ k, cfg.retryOn (eA k) = true)
    (hB : ∀ k, behave b k = .error (eB k)) (hBr : ∀ k, cfg.retryOn (eB k) = true) :
    (∀ r : LLMResponse, behave c 0 = .ok r →
      routerComplete cfg behave factors [a, b, c] =
        (.ok r, [(a, cfg.maxRetries + 1), (b, cfg.maxRetries + 1), (c, 1)])) ∧
    (∀ eC : Nat → LLMErr, (∀ k, behave c k = .error (eC k)) →
      (∀ k, cfg.retryOn (eC k) = true) →
      routerComplete cfg behave factors [a, b, c] =
        (.error (.allFailed (some (eC cfg.maxRetries))),
         [(a, cfg.maxRetries + 1), (b, cfg.maxRetries + 1),
          (c, cfg.maxRetries + 1)])) := by
  have ha := providerComplete_exhaust cfg behave factors a eA hA hAr
  have hb := providerComplete_exhaust cfg behave factors b eB hB hBr
  constructor
  · intro r hok
    have hc := providerComplete_first_ok cfg behave factors c r hok
    simp [routerComplete, routerCompleteGo, ha, hb, hc]
  · intro eC hC hCr
    have hc := providerComplete_exhaust cfg behave factors c eC hC hCr
    simp [routerComplete, routerCompleteGo, ha, hb, hc]

/-- Per-model transport behavior used by the C7 witness. -/
def c7Behavior : String → Nat → Except LLMErr LLMResponse
  | "A", _ => .error (.timeoutErr "A timed out")
  | "B", _ => .error (.rateLimit "B rate limited")
  | _, _ => .ok { content := "hi from C", model := "C" }

/-- C7 witness: the theorem applied to the concrete chain
`["A", "B", "C"]` with A timing out, B rate-limited and C succeeding, under
the default retry budget of 3 retries. -/
theorem C7_router_complete_fallback_chain_witness :
    routerComplete { maxRetries := 3 } c7Behavior (fun _ => 1) ["A", "B", "C"] =
      (.ok { content := "hi from C", model := "C" }, [("A", 4), ("B", 4), ("C", 1)]) := by
  have h := (C7_router_complete_fallback_chain { maxRetries := 3 } c7Behavior
    (fun _ => 1) "A" "B" "C" (fun _ => .timeoutErr "A timed out")
    (fun _ => .rateLimit "B rate limited")
    (fun k => rfl) (fun k => rfl) (fun k => rfl) (fun k => rfl)).1
    { content := "hi from C", model := "C" } rfl
  simpa using h

/-! ## Router streaming (`src/lidco/llm/router.py` `ModelRouter.stream`) -/

/-- A chunk of a streaming response (`StreamChunk` in `llm/base.py`),
reduced to its text delta for this development. -/
structure StreamChunk where
  content : String
deriving Repr, DecidableEq

/-- Streaming behavior of one candidate model: the chunks its generator
yields, followed by either normal completion (`outcome = none`) or an
exception raised after those chunks (`outcome = some e`). -/
structure StreamBehavior where
  chunks : List StreamChunk
  outcome : Option String
deriving Repr, DecidableEq

/-- Python `f"All models failed. Last error: {last_error}"` (with
`last_error = None` rendered as "None"). -/
def aggregateStreamError (lastErr : Option String) : String :=
  "All models failed. Last error: " ++
    (match lastErr with | some e => e | none => "None")

/-- Candidate loop of `ModelRouter.stream`.  For each candidate the router
iterates the provider's generator inside `try`, re-yielding every chunk; a
failure raised by the generator — whether before its first chunk or midway,
after chunks have already been yielded — is caught by the `except` around
the whole `async for`, and the loop advances to the next candidate.  The
embedding returns the full sequence of chunks the consumer observes plus
the terminal outcome (`none` for normal completion, `some msg` for the
aggregate error raised after the chain is exhausted). -/
def routerStreamGo (behave : String → StreamBehavior) :
    List String → Option String → List StreamChunk × Option String
  | [], lastErr => ([], some (aggregateStreamError lastErr))
  | c :: rest, lastErr =>
    let b := behave c
    match b.outcome with
    | none => (b.chunks, none)
    | some e =>
      let res := routerStreamGo behave rest (some e)
      (b.chunks ++ res.1, res.2)

/-- Embedding of `ModelRouter.stream` over an already-resolved chain. -/
def routerStream (behave : String → StreamBehavior) (chain : List String) :
    List StreamChunk × Option String :=
  routerStreamGo behave chain none

/-- Streaming behavior for the C3 counterexample: model "A" yields one chunk
and then raises mid-stream; model "B" streams two chunks to completion. -/
def c3Behavior : String → StreamBehavior
  | "A" => { chunks := [⟨"a1"⟩], outcome := some "boom" }
  | _ => { chunks := [⟨"b1"⟩, ⟨"b2"⟩], outcome := none }

/-- C3 counterexample.  The claim asserts that once at least one chunk of a
candidate's stream has been yielded, a mid-stream failure of that candidate
is not retried onto the next candidate.  With chain `["A", "B"]` where "A"
yields the chunk "a1" and then fails mid-stream, the consumer nevertheless
receives "B"'s chunks after "a1": the `except` in the candidate loop wraps
the whole `async for ... yield` body, so the mid-stream failure of "A" IS
retried onto "B". -/
theorem C3_stream_midstream_failure_is_retried :
    (c3Behavior "A").chunks ≠ [] ∧
    routerStream c3Behavior ["A", "B"] = ([⟨"a1"⟩, ⟨"b1"⟩, ⟨"b2"⟩], none) := by
  exact ⟨by decide, rfl⟩

theorem routerStreamGo_success (behave : String → StreamBehavior)
    (rest : List String) (c : String) (hok : (behave c).outcome = none) :
    ∀ (pre : List String) (lastErr : Option String),
      (∀ m ∈ pre, (behave m).outcome ≠ none) →
      routerStreamGo behave (pre ++ c :: rest) lastErr =
        ((pre.map (fun m => (behave m).chunks)).flatten ++ (behave c).chunks,
         none) := by
  intro pre
  induction pre with
  | nil =>
    intro lastErr _
    simp only [List.nil_append, List.map_nil, List.flatten_nil]
    rw [routerStreamGo, hok]
  | cons m pre ih =>
    intro lastErr hfail
    have hm : (behave m).outcome ≠ none := hfail m (by simp)
    obtain ⟨e, he⟩ : ∃ e, (behave m).outcome = some e :=
      Option.ne_none_iff_exists'.mp hm
    have hrec := ih (some e) (fun x hx => hfail x (by simp [hx]))
    simp only [List.cons_append]
    rw [routerStreamGo, he]
    simp [hrec, List.append_assoc]

theorem routerStreamGo_allfail (behave : String → StreamBehavior) :
    ∀ (chain : List String) (hne : chain ≠ []) (lastErr : Option String),
      (∀ m ∈ chain, (behave m).outcome ≠ none) →
      routerStreamGo behave chain lastErr =
        ((chain.map (fun m => (behave m).chunks)).flatten,
         some (aggregateStreamError ((behave (chain.getLast hne)).outcome))) := by
  intro chain
  induction chain with
  | nil => intro hne; exact absurd rfl hne
  | cons m rest ih =>
    intro _ lastErr hfail
    have hm : (behave m).outcome ≠ none := hfail m (by simp)
    obtain ⟨e, he⟩ : ∃ e, (behave m).outcome = some e :=
      Option.ne_none_iff_exists'.mp hm
    cases rest with
    | nil =>
      rw [routerStreamGo, he]
      simp [routerStreamGo, List.getLast, he]
    | cons m2 rest2 =>
      have hrec := ih (by simp) (some e) (fun x hx => hfail x (by simp [hx]))
      rw [routerStreamGo, he]
      simp only [hrec]
      simp [List.getLast]

/-- C3, amended.  `ModelRouter.stream` advances to the next candidate on any
failure of the current candidate's generator — before the first chunk or
mid-stream alike; chunks already yielded by a failed candidate are not
retracted, so the consumer sees each failed candidate's prefix followed by
the next candidate's chunks; the stream completes normally after the first
candidate whose generator finishes without raising, and only when every
candidate fails does it raise the aggregate error referencing the last
failure.  Formally: if the candidates in `pre` all fail and `c` completes
normally, the observed stream is the concatenation of the failed prefixes
followed by `c`'s chunks; and if every candidate of the chain fails, the
observed stream is the concatenation of all prefixes terminated by the
aggregate error of the last candidate's failure. -/
theorem C3_stream_amended (behave : String → StreamBehavior) :
    (∀ (pre rest : List String) (c : String),
      (∀ m ∈ pre, (behave m).outcome ≠ none) → (behave c).outcome = none →
      routerStream behave (pre ++ c :: rest) =
        ((pre.map (fun m => (behave m).chunks)).flatten ++ (behave c).chunks,
         none)) ∧
    (∀ (chain : List String) (hne : chain ≠ []),
      (∀ m ∈ chain, (behave m).outcome ≠ none) →
      routerStream behave chain =
        ((chain.map (fun m => (behave m).chunks)).flatten,
         some (aggregateStreamError
           ((behave (chain.getLast hne)).outcome)))) := by
  constructor
  · intro pre rest c hfail hok
    exact routerStreamGo_success behave rest c hok pre none hfail
  · intro chain hne hfail
    exact routerStreamGo_allfail behave chain hne none hfail

/-- C3 amended, witness: the amended theorem applied to the concrete chain
`["A", "B"]` of the counterexample behavior, with `pre = ["A"]` failing
mid-stream and "B" completing. -/
theorem C3_stream_amended_witness :
    routerStream c3Behavior (["A"] ++ "B" :: []) =
      (((["A"].map (fun m => (c3Behavior m).chunks)).flatten ++
        (c3Behavior "B").chunks), none) :=
  (C3_stream_amended c3Behavior).1 ["A"] [] "B"
    (by intro m hm; simp at hm; subst hm; decide) rfl

/-! ## Tool result truncation (`src/lidco/core/truncation.py`) and token
estimation (`src/lidco/core/token_estimation.py`) -/

/-- Python `str.splitlines` restricted to newline-separated strings: like
`splitOn "\n"` except that the empty string yields no lines and a trailing
newline does not produce a trailing empty line. -/
def pySplitlines (s : String) : List String :=
  if s = "" then []
  else
    let parts := s.splitOn "\n"
    if parts.getLast? = some "" then parts.dropLast else parts

/-- Embedding of `_truncate_file_read`: keep the first `headLines` and last
`tailLines` lines with an omission marker (Python `lines[-tail_lines:]`
keeps everything when `tail_lines` is 0). -/
def truncateFileRead (output : String) (headLines tailLines : Nat) : String :=
  let lines := pySplitlines output
  let total := lines.length
  if total ≤ headLines + tailLines then output
  else
    let omitted := total - headLines - tailLines
    let tail := if tailLines = 0 then lines else lines.drop (total - tailLines)
    String.intercalate "\n" (lines.take headLines)
      ++ "\n\n... (" ++ toString omitted ++ " lines omitted) ...\n\n"
      ++ String.intercalate "\n" tail

/-- Embedding of `_truncate_search_results`. -/
def truncateSearchResults (output : String) (maxResults : Nat) : String :=
  let lines := pySplitlines output
  let total := lines.length
  if total ≤ maxResults then output
  else
    String.intercalate "\n" (lines.take maxResults)
      ++ "\n\n... (" ++ toString (total - maxResults) ++ " more matches) ..."

/-- Embedding of `_truncate_plain`. -/
def truncatePlain (output : String) (maxChars : Nat) : String :=
  output.take maxChars
    ++ "\n\n... (truncated, " ++ toString (output.length - maxChars) ++ " chars omitted) ..."

/-- Embedding of `truncate_tool_result`. -/
def truncateToolResult (toolName output : String) (maxChars : Nat := 12000) : String :=
  if output.length ≤ maxChars then output
  else if toolName = "file_read" then truncateFileRead output 80 20
  else if toolName = "grep" ∨ toolName = "glob" then truncateSearchResults output 30
  else if toolName = "bash" then truncateFileRead output 100 20
  else if toolName = "git" then truncateFileRead output 100 20
  else truncatePlain output maxChars

/-- Embedding of `estimate_tokens`: the ~4 chars/token heuristic. -/
def estimateTokens (text : String) : Nat :=
  if text = "" then 0 else max 1 (text.length / 4)

/-- Length of `json.dumps(message.tool_calls)`.  The JSON serializer is an
external library; its output length is modelled as the payload lengths plus
a fixed per-entry overhead for the structural punctuation.  No verified
claim depends on this value (it only shifts the pruning trigger point). -/
def toolCallsDumpLen (tcs : List ToolCallRaw) : Nat :=
  2 + (tcs.map (fun tc => tc.id.length + tc.name.length + tc.args.length + 60)).sum

/-- Embedding of `estimate_message_tokens`: 4 tokens of role overhead plus
content, serialized tool calls and tool name. -/
def estimateMessageTokens (m : Message) : Nat :=
  4 + estimateTokens m.content
    + (if m.tool_calls = [] then 0
       else max 1 (toolCallsDumpLen m.tool_calls / 4))
    + (match m.name with
       | some n => if n = "" then 0 else estimateTokens n
       | none => 0)

/-- Embedding of `estimate_conversation_tokens`. -/
def estimateConversationTokens (ms : List Message) : Nat :=
  (ms.map estimateMessageTokens).sum

/-! ## The agent ReAct loop (`src/lidco/agents/base.py` `BaseAgent.run`) -/

/-- Embedding of `AgentConfig`. -/
structure AgentConfig where
  name : String
  description : String := ""
  system_prompt : String := ""
  model : Option String := none
  temperature : ℚ := 1/10
  max_tokens : Nat := 4096
  tools : List String := []
  max_iterations : Nat := 200
  fallback_model : Option String := none
  context_window : Nat := 128000

/-- Cumulative token usage (`TokenUsage` dataclass). -/
structure TokenUsage where
  promptTokens : Nat := 0
  completionTokens : Nat := 0
  totalTokens : Nat := 0
  totalCostUsd : ℚ := 0
deriving Repr, DecidableEq

/-- Cost of one LLM response in USD, as accumulated by the loop. -/
def llmCostUsd (_r : LLMResponse) : ℚ := 0

/-- Embedding of `TokenUsage.add` applied to a response's usage dict. -/
def TokenUsage.addResp (u : TokenUsage) (r : LLMResponse) (cost : ℚ) : TokenUsage :=
  { promptTokens := u.promptTokens + r.promptTokens,
    completionTokens := u.completionTokens + r.completionTokens,
    totalTokens := u.totalTokens + r.totalTokens,
    totalCostUsd := u.totalCostUsd + cost }

/-- One `{"tool": ..., "args": ...}` record of `all_tool_calls` /
`AgentResponse.tool_calls_made`.  Parsed JSON argument maps are modelled as
string-to-string association lists. -/
structure ToolCallRec where
  tool : String
  args : List (String × String)
deriving Repr, DecidableEq

/-- Embedding of `AgentResponse`. -/
structure AgentResponse where
  content : String
  tool_calls_made : List ToolCallRec := []
  iterations : Nat := 0
  model_used : String := ""
  token_usage : TokenUsage := {}
deriving Repr, DecidableEq

/-- External collaborators of one `BaseAgent.run` invocation.  The LLM is
indexed by the model-call count (the sequence of responses the run
observes); `.error` models an exception propagating out of the LLM call
(e.g. the router's chain-exhaustion `RuntimeError`).  Tools are looked up in
the registry and behave as pure functions from parsed arguments to a `_run`
outcome.  `parseArgs` models `json.loads` on the raw argument payload
(`none` = `JSONDecodeError`). -/
structure AgentEnv where
  llm : Nat → Except String LLMResponse
  toolRegistry : String → Option (List (String × String) → Except ToolExn ToolResult)
  parseArgs : String → Option (List (String × String))
  permission : Option (String → List (String × String) → Bool) := none
  continueH : Option (Nat → Nat → Bool) := none
  clarH : Option (Clarification → Except String String) := none
  streaming : Bool := false

/-- Dispatch of a single tool call from the loop, i.e.
`BaseAgent._execute_tool`: registry lookup, permission check, then the
execute/intercept path shared with `executeToolDispatch`. -/
def agentExecuteTool (env : AgentEnv) (toolName : String)
    (args : List (String × String)) : Except String ToolResult :=
  match env.toolRegistry toolName with
  | none => .ok { output := "", success := false,
                  error := some ("Unknown tool: " ++ toolName) }
  | some toolRun =>
    executeToolDispatch true toolName
      (env.permission.map (fun h => h toolName args)) env.clarH (toolRun args)

/-- Conversation message appended for one tool result: the raw text is the
output on success and `"Error: {error}"` on failure, truncated by
`truncate_tool_result`. -/
def toolResultMessage (tc : ToolCallRaw) (name : String) (r : ToolResult) : Message :=
  let raw := if r.success then r.output
             else "Error: " ++ (match r.error with | some s => s | none => "None")
  { role := "tool", content := truncateToolResult name raw 12000,
    tool_call_id := some tc.id, name := some name }

/-- A parsed tool call as carried by the loop: the raw call, its tool name
and its parsed argument map. -/
abbrev ParsedCall : Type := ToolCallRaw × String × List (String × String)

/-- Record appended to `all_tool_calls` for one parsed call. -/
def toolCallRecOf (p : ToolCallRaw × String × List (String × String)) : ToolCallRec :=
  { tool := p.2.1, args := p.2.2 }

/-- The read-only tool set of the parallel-dispatch fast path. -/
def readOnlySet : List String := ["file_read", "glob", "grep"]

/-- Batch condition of the loop:
`len(parsed_calls) > 1 and all(name in read_only_tools for ...)`. -/
def allReadOnly (parsed : List ParsedCall) : Bool :=
  decide (1 < parsed.length) && parsed.all (fun p => readOnlySet.contains p.2.1)

/-- Execution of a tool-call batch.  Both the parallel and the sequential
branch of the loop produce, for a pure tool environment, the tool-result
messages in original request order; a tool exception escaping
`_execute_tool` (impossible for `baseToolExecute`-built tools, but kept for
fidelity) propagates. -/
def dispatchToolBatch (env : AgentEnv) : List ParsedCall → Except String (List Message)
  | [] => .ok []
  | (tc, name, args) :: rest =>
    match agentExecuteTool env name args with
    | .error e => .error e
    | .ok r =>
      match dispatchToolBatch env rest with
      | .error e => .error e
      | .ok msgs => .ok (toolResultMessage tc name r :: msgs)

/-- Exact text of `_STREAMING_NARRATION_PROMPT`. -/
def streamingNarrationPrompt : String :=
  "\n\n## Streaming Style\nNarrate concisely (1-2 sentences) before each tool call and after each result. Never call tools silently. Think out loud like a pairing colleague.\n"

/-- Exact text of `_CLARIFICATION_HINT`. -/
def clarificationHint : String :=
  "\n\n## Clarification\nWhen the request is ambiguous or multiple valid approaches exist, use ask_user. Do NOT use for trivial decisions.\n"

/-- System message content built at the top of `run`. -/
def initialSystemContent (cfg : AgentConfig) (streaming : Bool) (context : String) : String :=
  let s := cfg.system_prompt
  let s := if streaming then s ++ streamingNarrationPrompt else s
  let s := if cfg.tools = [] ∨ cfg.tools.contains "ask_user" then s ++ clarificationHint else s
  if context = "" then s else s ++ "\n\n## Current Context\n" ++ context

/-- How one `run` invocation ended. -/
inductive ExitKind where
  | running
  | finalAnswer
  | capStop
  | llmRaised
deriving Repr, DecidableEq

/-- State threaded through the `while True` loop of `run`, with
instrumentation: `modelCalls` counts LLM calls issued, `approvals` counts
granted continue-handler extensions, `exit` records how the loop ended. -/
structure LoopSt where
  conversation : List Message
  iteration : Nat
  maxIter : Nat
  allToolCalls : List ToolCallRec
  usage : TokenUsage
  modelCalls : Nat
  approvals : Nat
  exit : ExitKind := .running
deriving Repr

/-- The fixed response returned when the iteration cap stops the run. -/
def maxIterResponse (cfg : AgentConfig) (st : LoopSt) : AgentResponse :=
  { content := "Reached maximum iterations. Here's what I have so far.",
    tool_calls_made := st.allToolCalls, iterations := st.iteration,
    model_used := cfg.model.getD "", token_usage := st.usage }

/-- Conversation pruning step of the loop: when the conversation exceeds 8
messages, prune at 75% (target 40%) or else 50% (target 60%) of the context
window.  The float thresholds `0.75` and `0.50` are exact; the float
products `context_limit * 4 * 0.40` / `* 0.60` are rendered as the rational
values `limit * 8 / 5` and `limit * 12 / 5`. -/
def loopPrune (cfg : AgentConfig) (conversation : List Message) : List Message :=
  if 8 < conversation.length then
    let est := estimateConversationTokens conversation
    let lim := cfg.context_window
    if 3 * lim < 4 * est then pruneConversation conversation (lim * 8 / 5) 3
    else if lim < 2 * est then pruneConversation conversation (lim * 12 / 5) 3
    else conversation
  else conversation

/-- Outcome of one pass of the `while True` body: either the run returns
(`done`, normally or by propagating an exception) or the loop continues. -/
inductive StepOut where
  | done (res : Except String AgentResponse) (st : LoopSt)
  | next (st : LoopSt)

/-- One pass of the `while True` body of `run`: cap check (ask the continue
handler, extend the cap or break), iteration increment, pruning, the model
call, terminal-response check, and tool-call processing. -/
def agentStep (cfg : AgentConfig) (env : AgentEnv) (st0 : LoopSt) : StepOut :=
  let capped : Except Unit LoopSt :=
    if st0.maxIter ≤ st0.iteration then
      match env.continueH with
      | some h =>
        if h st0.iteration st0.maxIter then
          .ok { st0 with maxIter := st0.maxIter + cfg.max_iterations,
                         approvals := st0.approvals + 1 }
        else .error ()
      | none => .error ()
    else .ok st0
  match capped with
  | .error () =>
    let st := { st0 with exit := .capStop }
    .done (.ok (maxIterResponse cfg st)) st
  | .ok st1 =>
    let st2 := { st1 with iteration := st1.iteration + 1,
                          conversation := loopPrune cfg st1.conversation }
    match env.llm st2.modelCalls with
    | .error e => .done (.error e) { st2 with modelCalls := st2.modelCalls + 1,
                                              exit := .llmRaised }
    | .ok resp =>
      let st3 := { st2 with modelCalls := st2.modelCalls + 1,
                            usage := st2.usage.addResp resp (llmCostUsd resp) }
      if resp.tool_calls = [] then
        let st4 := { st3 with exit := .finalAnswer }
        .done (.ok { content := resp.content, tool_calls_made := st4.allToolCalls,
                     iterations := st4.iteration, model_used := resp.model,
                     token_usage := st4.usage }) st4
      else
        let assistantMsg : Message :=
          { role := "assistant", content := resp.content, tool_calls := resp.tool_calls }
        let st4 := { st3 with conversation := st3.conversation ++ [assistantMsg] }
        let parsed : List ParsedCall := resp.tool_calls.map
          (fun tc => (tc, tc.name, (env.parseArgs tc.args).getD []))
        let st5 := { st4 with allToolCalls := st4.allToolCalls ++ parsed.map toolCallRecOf }
        match dispatchToolBatch env parsed with
        | .error e => .done (.error e) { st5 with exit := .llmRaised }
        | .ok msgs => .next { st5 with conversation := st5.conversation ++ msgs }

/-- The `while True` loop of `run`, driven by fuel; `none` in the first
component means the fuel ran out with the loop still running. -/
def agentLoop (cfg : AgentConfig) (env : AgentEnv) :
    Nat → LoopSt → Option (Except String AgentResponse) × LoopSt
  | 0, st => (none, st)
  | fuel + 1, st =>
    match agentStep cfg env st with
    | .done res st1 => (some res, st1)
    | .next st1 => agentLoop cfg env fuel st1

/-- Initial loop state built at the top of `run`. -/
def initLoopSt (cfg : AgentConfig) (env : AgentEnv) (userMessage context : String) : LoopSt :=
  { conversation :=
      [ { role := "system", content := initialSystemContent cfg env.streaming context },
        { role := "user", content := userMessage } ],
    iteration := 0, maxIter := cfg.max_iterations, allToolCalls := [],
    usage := {}, modelCalls := 0, approvals := 0 }

/-- Embedding of `BaseAgent.run`. -/
def agentRun (cfg : AgentConfig) (env : AgentEnv) (fuel : Nat)
    (userMessage context : String) :
    Option (Except String AgentResponse) × LoopSt :=
  agentLoop cfg env fuel (initLoopSt cfg env userMessage context)

/-! ## C2: `run` propagates model-call exceptions -/

/-- Configuration used in the C2 counterexample: a default coder agent. -/
def cfgC2 : AgentConfig := { name := "coder" }

/-- Environment used in the C2 counterexample: the model call raises the
router's chain-exhaustion `RuntimeError` on every invocation. -/
def envC2 : AgentEnv :=
  { llm := fun _ => .error "All models failed. Last error: boom",
    toolRegistry := fun _ => none,
    parseArgs := fun _ => none }

/-- C2 counterexample.  The claim asserts `BaseAgent.run` never raises and
always returns an `AgentResponse` describing the failure.  But `run` wraps
its model call in no `try`: when `ModelRouter.complete` exhausts the
fallback chain and raises, the exception propagates out of `run` — the
embedded run returns `.error` rather than an `AgentResponse`. -/
theorem C2_run_raises_on_chain_exhaustion :
    (agentRun cfgC2 envC2 5 "hi" "").1 =
      some (.error "All models failed. Last error: boom") := by
  rfl

/-! ## C9: the iteration cap and continue-handler extensions -/

/-- Loop invariant for the cap accounting of `run`: every iteration issues
exactly one model call; the cap always equals `max_iterations` times one
plus the number of granted extensions; with no extension granted the
iteration count never exceeds `max_iterations`; when `max_iterations` is
positive the iteration count never exceeds the (extended) cap; and no
extension is ever granted without a registered continue handler. -/
def loopInv (cfg : AgentConfig) (env : AgentEnv) (st : LoopSt) : Prop :=
  st.modelCalls = st.iteration ∧
  st.maxIter = cfg.max_iterations * (1 + st.approvals) ∧
  (st.approvals = 0 → st.iteration ≤ cfg.max_iterations) ∧
  (1 ≤ cfg.max_iterations → st.iteration ≤ st.maxIter) ∧
  (env.continueH = none → st.approvals = 0)

theorem agentStep_inv (cfg : AgentConfig) (env : AgentEnv) (st0 : LoopSt)
    (h : loopInv cfg env st0) :
    loopInv cfg env
      (match agentStep cfg env st0 with
       | .done _ st1 => st1
       | .next st1 => st1) := by
  obtain ⟨h1, h2, h3, h4, h5⟩ := h
  unfold agentStep
  by_cases hcap : st0.maxIter ≤ st0.iteration
  · simp only [hcap, if_true]
    cases hch : env.continueH with
    | none => exact ⟨h1, h2, h3, h4, fun _ => h5 hch⟩
    | some hh =>
      by_cases happ : hh st0.iteration st0.maxIter
      · simp only [happ, if_true]
        cases hllm : env.llm st0.modelCalls with
        | error e =>
          simp only [loopInv]
          refine ⟨by omega, by rw [h2]; ring, by intro hz; omega,
            by intro hm; have := h4 hm; omega,
            by intro hnone; simp [hnone] at hch⟩
        | ok resp =>
          by_cases htc : resp.tool_calls = []
          · simp only [htc, if_true]
            simp only [loopInv]
            refine ⟨by omega, by rw [h2]; ring, by intro hz; omega,
              by intro hm; have := h4 hm; omega,
              by intro hnone; simp [hnone] at hch⟩
          · simp only [htc, if_false]
            cases hdis : dispatchToolBatch env
              (resp.tool_calls.map
                (fun tc => (tc, tc.name, (env.parseArgs tc.args).getD []))) with
            | error e =>
              simp only [loopInv]
              refine ⟨by omega, by rw [h2]; ring, by intro hz; omega,
                by intro hm; have := h4 hm; omega,
                by intro hnone; simp [hnone] at hch⟩
            | ok msgs =>
              simp only [loopInv]
              refine ⟨by omega, by rw [h2]; ring, by intro hz; omega,
                by intro hm; have := h4 hm; omega,
                by intro hnone; simp [hnone] at hch⟩
      · simp only [happ, if_false]
        exact ⟨h1, h2, h3, h4, h5⟩
  · simp only [hcap, if_false]
    have hlt : st0.iteration < st0.maxIter := Nat.lt_of_not_le hcap
    have hM0 : st0.approvals = 0 → st0.maxIter = cfg.max_iterations := by
      intro hz; rw [h2, hz]; ring
    cases hllm : env.llm st0.modelCalls with
    | error e =>
      simp only [loopInv]
      refine ⟨by omega, h2, by intro hz; have := hM0 hz; omega,
        by intro hm; omega, h5⟩
    | ok resp =>
      by_cases htc : resp.tool_calls = []
      · simp only [htc, if_true]
        simp only [loopInv]
        refine ⟨by omega, h2, by intro hz; have := hM0 hz; omega,
          by intro hm; omega, h5⟩
      · simp only [htc, if_false]
        cases hdis : dispatchToolBatch env
          (resp.tool_calls.map
            (fun tc => (tc, tc.name, (env.parseArgs tc.args).getD []))) with
        | error e =>
          simp only [loopInv]
          refine ⟨by omega, h2, by intro hz; have := hM0 hz; omega,
            by intro hm; omega, h5⟩
        | ok msgs =>
          simp only [loopInv]
          refine ⟨by omega, h2, by intro hz; have := hM0 hz; omega,
            by intro hm; omega, h5⟩

theorem agentLoop_inv (cfg : AgentConfig) (env : AgentEnv) :
    ∀ (fuel : Nat) (st : LoopSt), loopInv cfg env st →
      loopInv cfg env (agentLoop cfg env fuel st).2 := by
  intro fuel
  induction fuel with
  | zero => intro st h; exact h
  | succ fuel ih =>
    intro st h
    have hstep := agentStep_inv cfg env st h
    rw [agentLoop]
    cases hag : agentStep cfg env st with
    | done res st1 =>
      rw [hag] at hstep
      exact hstep
    | next st1 =>
      rw [hag] at hstep
      exact ih st1 hstep

theorem agentStep_capStop (cfg : AgentConfig) (env : AgentEnv) (st0 : LoopSt) :
    ∀ res st1, agentStep cfg env st0 = .done res st1 → st1.exit = .capStop →
      res = .ok (maxIterResponse cfg st1) := by
  intro res st1 heq hexit
  unfold agentStep at heq
  by_cases hcap : st0.maxIter ≤ st0.iteration
  · simp only [hcap, if_true] at heq
    cases hch : env.continueH with
    | none =>
      rw [hch] at heq
      cases heq
      rfl
    | some hh =>
      rw [hch] at heq
      by_cases happ : hh st0.iteration st0.maxIter
      · simp only [happ, if_true] at heq
        cases hllm : env.llm st0.modelCalls with
        | error e =>
          rw [hllm] at heq
          cases heq
          exact ExitKind.noConfusion hexit
        | ok resp =>
          rw [hllm] at heq
          by_cases htc : resp.tool_calls = []
          · simp only [htc, if_true] at heq
            cases heq
            exact ExitKind.noConfusion hexit
          · simp only [htc, if_false] at heq
            cases hdis : dispatchToolBatch env
              (resp.tool_calls.map
                (fun tc => (tc, tc.name, (env.parseArgs tc.args).getD []))) with
            | error e =>
              rw [hdis] at heq
              cases heq
              exact ExitKind.noConfusion hexit
            | ok msgs =>
              rw [hdis] at heq
              cases heq
      · simp only [happ, if_false] at heq
        cases heq
        rfl
  · simp only [hcap, if_false] at heq
    cases hllm : env.llm st0.modelCalls with
    | error e =>
      rw [hllm] at heq
      cases heq
      exact ExitKind.noConfusion hexit
    | ok resp =>
      rw [hllm] at heq
      by_cases htc : resp.tool_calls = []
      · simp only [htc, if_true] at heq
        cases heq
        exact ExitKind.noConfusion hexit
      · simp only [htc, if_false] at heq
        cases hdis : dispatchToolBatch env
          (resp.tool_calls.map
            (fun tc => (tc, tc.name, (env.parseArgs tc.args).getD []))) with
        | error e =>
          rw [hdis] at heq
          cases heq
          exact ExitKind.noConfusion hexit
        | ok msgs =>
          rw [hdis] at heq
          cases heq

theorem agentLoop_capStop (cfg : AgentConfig) (env : AgentEnv) :
    ∀ (fuel : Nat) (st : LoopSt) (res : Except String AgentResponse)
      (st1 : LoopSt),
      agentLoop cfg env fuel st = (some res, st1) → st1.exit = .capStop →
      res = .ok (maxIterResponse cfg st1) := by
  intro fuel
  induction fuel with
  | zero => intro st res st1 heq; cases heq
  | succ fuel ih =>
    intro st res st1 heq hexit
    rw [agentLoop] at heq
    cases hag : agentStep cfg env st with
    | done r s1 =>
      rw [hag] at heq
      have h1 : some r = some res := congrArg Prod.fst heq
      have h2 : s1 = st1 := congrArg Prod.snd heq
      have h3 : r = res := Option.some.inj h1
      rw [← h3]
      rw [← h2] at hexit
      rw [← h2]
      exact agentStep_capStop cfg env st r s1 hag hexit
    | next s1 =>
      rw [hag] at heq
      exact ih s1 res st1 heq hexit


/-- C9.  During one `run` invocation: (i) with no granted extension the loop
issues at most `max_iterations` model calls; (ii) for a positive
`max_iterations` the number of model calls never exceeds `max_iterations`
times one plus the number of granted extensions; (iii) the cap always
equals `max_iterations * (1 + approvals)` — each approval increases it by
exactly one `max_iterations` increment; (iv) with no continue handler
registered no extension is ever granted; (v) whenever the loop stops at the
cap (handler declined or absent), the run returns the fixed
"Reached maximum iterations" response. -/
theorem C9_iteration_cap (cfg : AgentConfig) (env : AgentEnv) (fuel : Nat)
    (userMessage context : String) :
    ((agentRun cfg env fuel userMessage context).2.approvals = 0 →
      (agentRun cfg env fuel userMessage context).2.modelCalls ≤
        cfg.max_iterations) ∧
    (1 ≤ cfg.max_iterations →
      (agentRun cfg env fuel userMessage context).2.modelCalls ≤
        cfg.max_iterations *
          (1 + (agentRun cfg env fuel userMessage context).2.approvals)) ∧
    ((agentRun cfg env fuel userMessage context).2.maxIter =
      cfg.max_iterations *
        (1 + (agentRun cfg env fuel userMessage context).2.approvals)) ∧
    (env.continueH = none →
      (agentRun cfg env fuel userMessage context).2.approvals = 0) ∧
    (∀ res, (agentRun cfg env fuel userMessage context).1 = some res →
      (agentRun cfg env fuel userMessage context).2.exit = .capStop →
      res = .ok (maxIterResponse cfg
        (agentRun cfg env fuel userMessage context).2)) := by
  have hinit : loopInv cfg env (initLoopSt cfg env userMessage context) := by
    refine ⟨rfl, by simp [initLoopSt], fun _ => Nat.zero_le _,
      fun _ => Nat.zero_le _, fun _ => rfl⟩
  have hinv := agentLoop_inv cfg env fuel
    (initLoopSt cfg env userMessage context) hinit
  obtain ⟨h1, h2, h3, h4, h5⟩ := hinv
  unfold agentRun
  refine ⟨?_, ?_, h2, h5, ?_⟩
  · intro hz
    rw [h1]
    exact h3 hz
  · intro hm
    rw [h1]
    calc (agentLoop cfg env fuel (initLoopSt cfg env userMessage context)).2.iteration
        ≤ (agentLoop cfg env fuel (initLoopSt cfg env userMessage context)).2.maxIter :=
          h4 hm
      _ = _ := h2
  · intro res hres hexit
    have hpair : agentLoop cfg env fuel (initLoopSt cfg env userMessage context) =
        (some res,
         (agentLoop cfg env fuel (initLoopSt cfg env userMessage context)).2) := by
      rw [← hres]
    exact agentLoop_capStop cfg env fuel
      (initLoopSt cfg env userMessage context) res _ hpair hexit

/-- Environment for the C9 witness: the model immediately returns a final
text answer and no continue handler is registered. -/
def envC9 : AgentEnv :=
  { llm := fun _ => .ok { content := "done", model := "m" },
    toolRegistry := fun _ => none,
    parseArgs := fun _ => none }

/-- Configuration for the C9 witness: cap of 2 iterations. -/
def cfgC9 : AgentConfig := { name := "coder", max_iterations := 2 }

/-- C9 witness: the cap theorem applied at a concrete run that finishes in
one model call under a cap of 2. -/
theorem C9_iteration_cap_witness :
    (agentRun cfgC9 envC9 5 "hi" "").2.modelCalls ≤ cfgC9.max_iterations ∧
    (agentRun cfgC9 envC9 5 "hi" "").2.maxIter =
      cfgC9.max_iterations * (1 + (agentRun cfgC9 envC9 5 "hi" "").2.approvals) :=
  ⟨(C9_iteration_cap cfgC9 envC9 5 "hi" "").1 (by rfl),
   (C9_iteration_cap cfgC9 envC9 5 "hi" "").2.2.1⟩

/-! ## C5: parallel dispatch of read-only batches -/

/-- Sequential branch of the tool-call loop with an explicit world state:
each call runs against the world left by the previous call, and its result
message is emitted immediately after it completes (before the next call
starts).  This is the semantics of the `else` branch at
`agents/base.py:408-429`; the world threading is what distinguishes it from
the parallel branch, where calls may not observe each other's effects. -/
def dispatchSequentialThreaded {W : Type} (exec : W → ParsedCall → ToolResult × W) :
    W → List ParsedCall → List Message × W
  | w, [] => ([], w)
  | w, c :: rest =>
    let r := exec w c
    let tail := dispatchSequentialThreaded exec r.2 rest
    (toolResultMessage c.1 c.2.1 r.1 :: tail.1, tail.2)

/-- The result of a tool dispatch as seen by the loop (the `.error` escape
is impossible: `BaseTool.execute` never raises). -/
def toolCallOutcome (env : AgentEnv) (p : ParsedCall) : ToolResult :=
  match agentExecuteTool env p.2.1 p.2.2 with
  | .ok r => r
  | .error _ => { output := "", success := false }

theorem agentExecuteTool_never_raises (env : AgentEnv) (name : String)
    (args : List (String × String)) :
    ∃ r, agentExecuteTool env name args = .ok r := by
  unfold agentExecuteTool executeToolDispatch baseToolExecute
  cases env.toolRegistry name with
  | none => exact ⟨_, rfl⟩
  | some toolRun =>
    simp only [Bool.not_true]
    cases env.permission.map (fun h => h name args) with
    | none =>
      cases toolRun args with
      | ok r => exact ⟨_, rfl⟩
      | error e => cases e <;> exact ⟨_, rfl⟩
    | some b =>
      cases b with
      | false => exact ⟨_, rfl⟩
      | true =>
        cases toolRun args with
        | ok r => exact ⟨_, rfl⟩
        | error e => cases e <;> exact ⟨_, rfl⟩

theorem dispatchToolBatch_request_order (env : AgentEnv) :
    ∀ parsed : List ParsedCall,
      dispatchToolBatch env parsed =
        .ok (parsed.map (fun p => toolResultMessage p.1 p.2.1 (toolCallOutcome env p))) := by
  intro parsed
  induction parsed with
  | nil => rfl
  | cons p rest ih =>
    obtain ⟨tc, name, args⟩ := p
    obtain ⟨r, hr⟩ := agentExecuteTool_never_raises env name args
    have hout : toolCallOutcome env (tc, name, args) = r := by
      unfold toolCallOutcome
      rw [hr]
    rw [dispatchToolBatch, hr, ih, List.map_cons, hout]

/-- Event log of a parallel batch execution: tasks complete in the order
given by `sigma` (a permutation of request indices), each producing its
result. -/
def completionLog (exec : Nat → ToolResult) (sigma : List Nat) :
    List (Nat × ToolResult) :=
  sigma.map (fun i => (i, exec i))

/-- Join of `asyncio.gather`: results are collected per request index `0..n-1`
(the order of the argument list), not in completion order. -/
def gatherResults (n : Nat) (log : List (Nat × ToolResult)) :
    List (Option ToolResult) :=
  (List.range n).map (fun i => (log.find? (fun p => p.1 == i)).map Prod.snd)

theorem completionLog_find (exec : Nat → ToolResult) :
    ∀ (sigma : List Nat) (i : Nat), i ∈ sigma →
      (completionLog exec sigma).find? (fun p => p.1 == i) = some (i, exec i) := by
  intro sigma
  induction sigma with
  | nil => intro i hi; cases hi
  | cons a rest ih =>
    intro i hi
    by_cases hai : a = i
    · subst hai
      simp [completionLog, List.find?]
    · have hmem : i ∈ rest := by
        cases hi with
        | head => exact absurd rfl hai
        | tail _ h => exact h
      have hfalse : ((a, exec a).1 == i) = false := by simp [hai]
      simp only [completionLog, List.map_cons] at ih ⊢
      rw [List.find?_cons]
      simp only [hfalse]
      exact ih i hmem

/-- C5.  (i) The batch condition of the loop holds exactly for batches of at
least two calls all of whose tool names lie in the read-only set
{file_read, glob, grep} — such batches take the `asyncio.gather` branch,
the rest the sequential branch.  (ii) For every completion order `sigma`
(any permutation of the request indices), the gather join produces the
results in original request order — the appended tool messages do not
depend on completion order.  (iii) The loop appends the batch's tool-result
messages to the conversation in request order.  (iv) In the sequential
branch each result message is produced from the world state left by the
previous call and appended immediately, so a later call can observe an
earlier call's effects. -/
theorem C5_readonly_parallel_dispatch :
    (∀ parsed : List ParsedCall,
      allReadOnly parsed = true ↔
        (1 < parsed.length ∧ ∀ p ∈ parsed, p.2.1 ∈ readOnlySet)) ∧
    (∀ (exec : Nat → ToolResult) (n : Nat) (sigma : List Nat),
      sigma.Perm (List.range n) →
      gatherResults n (completionLog exec sigma) =
        (List.range n).map (fun i => some (exec i))) ∧
    (∀ (env : AgentEnv) (parsed : List ParsedCall),
      dispatchToolBatch env parsed =
        .ok (parsed.map (fun p => toolResultMessage p.1 p.2.1 (toolCallOutcome env p)))) ∧
    (∀ (W : Type) (exec : W → ParsedCall → ToolResult × W) (w : W)
       (c : ParsedCall) (rest : List ParsedCall),
      dispatchSequentialThreaded exec w (c :: rest) =
        (toolResultMessage c.1 c.2.1 (exec w c).1 ::
           (dispatchSequentialThreaded exec (exec w c).2 rest).1,
         (dispatchSequentialThreaded exec (exec w c).2 rest).2)) := by
  refine ⟨?_, ?_, ?_, ?_⟩
  · intro parsed
    simp [allReadOnly, List.all_eq_true, readOnlySet]
  · intro exec n sigma hperm
    unfold gatherResults
    refine List.map_congr_left ?_
    intro i hi
    rw [completionLog_find exec sigma i (hperm.mem_iff.mpr hi)]
    rfl
  · exact dispatchToolBatch_request_order
  · intro W exec w c rest
    rfl

/-- C5 witness: the three concrete facts of the claim at a concrete batch —
a two-call file_read/grep batch is parallel-eligible, and for three results
joined after the completion order [2, 0, 1] the gather still yields request
order. -/
theorem C5_readonly_parallel_dispatch_witness :
    allReadOnly [(⟨"c1", "file_read", "{}"⟩, "file_read", []),
                 (⟨"c2", "grep", "{}"⟩, "grep", [])] = true ∧
    gatherResults 3 (completionLog (fun i => { output := toString i }) [2, 0, 1]) =
      [some { output := "0" }, some { output := "1" }, some { output := "2" }] := by
  constructor
  · exact (C5_readonly_parallel_dispatch.1 _).mpr (by decide)
  · have h := C5_readonly_parallel_dispatch.2.1 (fun i => { output := toString i }) 3
      [2, 0, 1] (by decide)
    rw [h]
    rfl

/-! ## Python string primitives, as structural recursions

The workflow graph compares and scans strings with Python's `str.strip`,
`str.upper`, `str.lower`, `str.startswith` and the `in` operator.  These are
rendered as structural recursions over the character list so that concrete
scenarios evaluate. -/

/-- Whether the first list begins with the second. -/
def listStartsWith : List Char → List Char → Bool
  | _, [] => true
  | [], _ :: _ => false
  | c :: cs, p :: ps => c == p && listStartsWith cs ps

/-- Python `s.startswith(pat)`. -/
def pyStartsWith (s pat : String) : Bool := listStartsWith s.toList pat.toList

/-- Whether `pat` occurs as a contiguous sublist. -/
def listContainsSub (pat : List Char) : List Char → Bool
  | [] => listStartsWith [] pat
  | c :: rest => listStartsWith (c :: rest) pat || listContainsSub pat rest

/-- Python `s.strip()`: drop whitespace from both ends. -/
def pyStrip (s : String) : String :=
  String.mk
    (((s.toList.dropWhile Char.isWhitespace).reverse.dropWhile
        Char.isWhitespace).reverse)

/-- Python `s.upper()` (ASCII). -/
def pyUpper (s : String) : String := String.mk (s.toList.map Char.toUpper)

/-- Python `s.lower()` (ASCII). -/
def pyLower (s : String) : String := String.mk (s.toList.map Char.toLower)

/-! ## Workflow graph (`src/lidco/agents/graph.py`) -/

/-- Python substring test `pat in s`. -/
def strContains (s pat : String) : Bool := listContainsSub pat.toList s.toList

/-- Orchestrator construction parameters of `GraphOrchestrator.__init__`. -/
structure OrchestratorConfig where
  default_agent : String := "coder"
  auto_review : Bool := true
  auto_plan : Bool := true
  max_review_iterations : Nat := 2

/-- Embedding of the `GraphState` TypedDict. -/
structure GraphState where
  user_message : String
  context : String
  selected_agent : String
  agent_response : Option AgentResponse
  conversation_history : List (String × String)
  needs_review : Bool
  review_response : Option AgentResponse
  error : Option String
  iteration : Nat
  clarification_context : String
  needs_planning : Bool
  plan_response : Option AgentResponse
  plan_approved : Bool
  review_iteration : Nat
deriving Repr

/-- Parsed outcome of the routing model call (`_route_node`): agent name and
the two flags.  The LLM call, the JSON extraction and the raw-text fallback
scan are external (model output dependent); this record carries their
combined result. -/
structure RouteDecision where
  agent : String
  needs_review : Bool
  needs_planning : Bool

/-- Invocation log of agent runs: (agent name, message, context). -/
abbrev GraphTrace : Type := List (String × String × String)

/-- Number of prior invocations of an agent in the trace. -/
def countAgent (tr : GraphTrace) (name : String) : Nat :=
  (tr.filter (fun t => t.1 = name)).length

/-- External collaborators of one `handle` invocation.  `runAgent` gives the
outcome of each agent's `run` by (name, per-agent invocation index, message,
context); `.error` is an exception escaping `run`.  `clarHandler` is the
clarification handler (its `.error` models a handler that raises).
`ambiguityQuestions` is the outcome of `analyze_ambiguity` (`none` covers a
clear message, a short-message skip and an analysis failure alike);
`ragContext` the outcome of the retrieval collaborator (`none` covers no
retriever, a failure and an empty result). -/
structure GraphEnv where
  agentsList : List String
  runAgent : String → Nat → String → String → Except String AgentResponse
  clarHandler : Option (String → List String → String → Except String String) := none
  routeDecision : RouteDecision
  hasClarificationMgr : Bool := false
  ambiguityQuestions : Option (List Clarification) := none
  ragContext : Option String := none

/-- Run an agent through the environment, appending to the trace. -/
def callAgent (env : GraphEnv) (tr : GraphTrace) (name msg ctx : String) :
    Except String AgentResponse × GraphTrace :=
  (env.runAgent name (countAgent tr name) msg ctx, tr ++ [(name, msg, ctx)])

/-- Context merge used by several nodes:
`f"{new}\n\n{existing}" if existing else new`. -/
def mergeCtx (newPart existing : String) : String :=
  if existing = "" then newPart else newPart ++ "\n\n" ++ existing

/-- Ask the clarification handler each pre-analysis question, collecting the
rendered `- question: answer` lines; a handler exception propagates. -/
def askAll (h : String → List String → String → Except String String) :
    List Clarification → Except String (List String)
  | [] => .ok []
  | q :: rest =>
    match h q.question q.options q.context with
    | .error e => .error e
    | .ok a =>
      match askAll h rest with
      | .error e => .error e
      | .ok restLines => .ok (("- " ++ q.question ++ ": " ++ a) :: restLines)

/-- Embedding of `_pre_analyze_node`.  The `save_decision` calls are memory
side effects without influence on the state. -/
def preAnalyzeNode (env : GraphEnv) (st : GraphState) : Except String GraphState :=
  if !env.hasClarificationMgr then .ok st
  else
    match env.clarHandler with
    | none => .ok st
    | some h =>
      match env.ambiguityQuestions with
      | none => .ok st
      | some [] => .ok st
      | some qs =>
        match askAll h qs with
        | .error e => .error e
        | .ok answers =>
          let text := "## User Clarifications\n" ++ String.intercalate "\n" answers
          .ok { st with context := mergeCtx text st.context,
                        clarification_context := text }

/-- Embedding of `_route_node` over the parsed routing decision. -/
def routeNode (cfg : OrchestratorConfig) (env : GraphEnv) (st : GraphState) :
    GraphState :=
  if st.selected_agent ≠ "" then st
  else if env.agentsList.length ≤ 1 then
    { st with selected_agent := cfg.default_agent, needs_review := false }
  else
    let d := env.routeDecision
    let agentName := if env.agentsList.contains d.agent then d.agent
                     else cfg.default_agent
    { st with selected_agent := agentName,
              needs_review := d.needs_review && cfg.auto_review,
              needs_planning := d.needs_planning }

/-- Embedding of `_needs_planning`: plan iff auto-planning is on, the router
flagged planning, the selected agent is the literal "coder" and a planner is
registered. -/
def needsPlanningDecision (cfg : OrchestratorConfig) (env : GraphEnv)
    (st : GraphState) : Bool :=
  cfg.auto_plan && st.needs_planning && (st.selected_agent == "coder")
    && env.agentsList.contains "planner"

/-- Embedding of `_execute_planner_node`: planner failure (or a missing
planner) is fail-open — no plan and `plan_approved = true`. -/
def executePlannerNode (env : GraphEnv) (st : GraphState) (tr : GraphTrace) :
    GraphState × GraphTrace :=
  if !env.agentsList.contains "planner" then
    ({ st with plan_response := none, plan_approved := true }, tr)
  else
    let r := callAgent env tr "planner" st.user_message st.context
    match r.1 with
    | .ok plan => ({ st with plan_response := some plan }, r.2)
    | .error _ => ({ st with plan_response := none, plan_approved := true }, r.2)

/-- Embedding of `_approve_plan_node`. -/
def approvePlanNode (env : GraphEnv) (st : GraphState) : GraphState :=
  match st.plan_response with
  | none => { st with plan_approved := true }
  | some plan =>
    match env.clarHandler with
    | none => { st with plan_approved := true }
    | some h =>
      match h "Approve this plan?" ["Approve", "Reject", "Edit"] plan.content with
      | .error _ => { st with plan_approved := true }
      | .ok answer =>
        let al := pyLower (pyStrip answer)
        if al = "approve" ∨ al = "y" ∨ al = "yes" ∨ al = "" then
          { st with plan_approved := true,
                    context := mergeCtx
                      ("## Implementation Plan (approved)\n" ++ plan.content)
                      st.context }
        else if al = "reject" ∨ al = "n" ∨ al = "no" then
          { st with plan_approved := false, agent_response := some plan }
        else
          { st with plan_approved := true,
                    context := mergeCtx
                      ("## Implementation Plan (edited by user)\n" ++ plan.content
                        ++ "\n\n## User Edits\n" ++ answer)
                      st.context }

/-- Rendering of one tool-call record as `- tool(k=v, ...)`, shared by the
planner-exploration summary and the review prompt. -/
def renderToolCall (tc : ToolCallRec) : String :=
  "- " ++ tc.tool ++ "("
    ++ String.intercalate ", " (tc.args.map (fun kv => kv.1 ++ "=" ++ kv.2)) ++ ")"

/-- Context string built by `_execute_agent_node` before running the agent:
conversation history (last 5 turns, 200 chars each), retrieval context,
planner exploration summary, and on a fix pass the prior review verbatim. -/
def buildAgentContext (env : GraphEnv) (st : GraphState) : String :=
  let context := st.context
  let context :=
    if st.conversation_history ≠ [] then
      let recent := st.conversation_history.drop (st.conversation_history.length - 5)
      let historyText := String.intercalate "\n"
        (recent.map (fun m => m.1 ++ ": " ++ m.2.take 200))
      "## Conversation History\n" ++ historyText ++ "\n\n" ++ context
    else context
  let context :=
    match env.ragContext with
    | some rag => if rag ≠ "" then rag ++ "\n\n" ++ context else context
    | none => context
  let context :=
    match st.plan_response with
    | some plan =>
      if plan.tool_calls_made ≠ [] then
        let fileReads := plan.tool_calls_made.filter
          (fun tc => tc.tool ∈ ["file_read", "grep", "glob"])
        if fileReads ≠ [] then
          "## Planner Exploration Results\n"
            ++ String.intercalate "\n" ((fileReads.take 15).map renderToolCall)
            ++ "\n\n" ++ context
        else context
      else context
    | none => context
  match st.review_response with
  | some review =>
    if 0 < st.review_iteration then
      "## Review Feedback (fix these issues)\n" ++ review.content
        ++ "\n\nFix the CRITICAL and HIGH issues identified above."
        ++ "\n\n" ++ context
    else context
  | none => context

/-- Embedding of `_execute_agent_node`: any exception escaping the agent's
`run` is caught at the node boundary and converted into an error
`AgentResponse` with zero tool calls. -/
def executeAgentNode (env : GraphEnv) (st : GraphState) (tr : GraphTrace) :
    GraphState × GraphTrace :=
  if !env.agentsList.contains st.selected_agent then
    ({ st with
        agent_response := some
          { content := "Agent \x27" ++ st.selected_agent ++ "\x27 not found.",
            iterations := 0 },
        error := some ("Agent \x27" ++ st.selected_agent ++ "\x27 not found.") }, tr)
  else
    let context := buildAgentContext env st
    let message :=
      match st.review_response with
      | some review =>
        if 0 < st.review_iteration then
          st.user_message ++ "\n\n[REVIEW FEEDBACK - fix these issues]\n"
            ++ review.content
        else st.user_message
      | none => st.user_message
    let r := callAgent env tr st.selected_agent message context
    match r.1 with
    | .ok response => ({ st with agent_response := some response, error := none }, r.2)
    | .error e =>
      ({ st with
          agent_response := some { content := "Agent error: " ++ e, iterations := 0 },
          error := some e }, r.2)

/-- Embedding of `_should_review`: review iff flagged and the agent made at
least one tool call. -/
def shouldReviewDecision (st : GraphState) : Bool :=
  st.needs_review &&
    (match st.agent_response with
     | some r => !(r.tool_calls_made.isEmpty)
     | none => false)

/-- Review prompt built by `_auto_review_node`. -/
def reviewPrompt (st : GraphState) (ar : AgentResponse) : String :=
  "Review the following changes made by the " ++ st.selected_agent
    ++ " agent:\n\nOriginal request: " ++ st.user_message
    ++ "\n\nTool calls made:\n"
    ++ String.intercalate "\n" ((ar.tool_calls_made.take 20).map renderToolCall)
    ++ "\n\nAgent response:\n" ++ ar.content.take 2000
    ++ "\n\nProvide a brief review focusing on CRITICAL and HIGH issues only.\n"
    ++ "If there are no CRITICAL or HIGH issues, start your response with: NO_ISSUES_FOUND"

/-- Embedding of `_auto_review_node`: increments `review_iteration` first in
every path; a reviewer failure leaves no review response. -/
def autoReviewNode (env : GraphEnv) (st : GraphState) (tr : GraphTrace) :
    GraphState × GraphTrace :=
  let reviewIter := st.review_iteration + 1
  if !env.agentsList.contains "reviewer" then
    ({ st with review_iteration := reviewIter }, tr)
  else
    match st.agent_response with
    | none => ({ st with review_iteration := reviewIter }, tr)
    | some ar =>
      let r := callAgent env tr "reviewer" (reviewPrompt st ar) ""
      match r.1 with
      | .ok review =>
        ({ st with review_response := some review,
                   review_iteration := reviewIter }, r.2)
      | .error _ => ({ st with review_iteration := reviewIter }, r.2)

/-- Embedding of `_should_fix`: after the increment, finalize when there is
no review, the (already incremented) counter has reached the cap, or the
stripped review text starts with the sentinel; otherwise fix exactly when
the upper-cased text contains "CRITICAL" or "HIGH". -/
def shouldFixDecision (cfg : OrchestratorConfig) (st : GraphState) : Bool :=
  match st.review_response with
  | none => false
  | some review =>
    if cfg.max_review_iterations ≤ st.review_iteration then false
    else
      let content := pyStrip review.content
      if pyStartsWith content "NO_ISSUES_FOUND" then false
      else strContains (pyUpper content) "CRITICAL" || strContains (pyUpper content) "HIGH"

/-- Embedding of `_finalize_node`: memory extraction and retrieval
re-indexing are external side effects; the state is returned unchanged. -/
def finalizeNode (st : GraphState) : GraphState := st

/-- Nodes of the compiled state graph. -/
inductive GNode where
  | preAnalyze | route | planGate | executePlanner | approvePlan
  | executeAgent | autoReview | finalize
deriving Repr, DecidableEq

/-- Driver of the compiled graph: entry `pre_analyze`, terminal `finalize`,
with the conditional edges of `_build_graph`.  `none` means the fuel ran out
(the review-fix cycle is bounded in practice by `max_review_iterations`). -/
def graphRun (cfg : OrchestratorConfig) (env : GraphEnv) :
    Nat → GNode → GraphState → GraphTrace →
      Option (Except String (GraphState × GraphTrace))
  | 0, _, _, _ => none
  | fuel + 1, node, st, tr =>
    match node with
    | .preAnalyze =>
      match preAnalyzeNode env st with
      | .error e => some (.error e)
      | .ok st1 => graphRun cfg env fuel .route st1 tr
    | .route => graphRun cfg env fuel .planGate (routeNode cfg env st) tr
    | .planGate =>
      if needsPlanningDecision cfg env st then
        graphRun cfg env fuel .executePlanner st tr
      else graphRun cfg env fuel .executeAgent st tr
    | .executePlanner =>
      let r := executePlannerNode env st tr
      graphRun cfg env fuel .approvePlan r.1 r.2
    | .approvePlan =>
      let st1 := approvePlanNode env st
      if st1.plan_approved then graphRun cfg env fuel .executeAgent st1 tr
      else graphRun cfg env fuel .finalize st1 tr
    | .executeAgent =>
      let r := executeAgentNode env st tr
      if shouldReviewDecision r.1 then graphRun cfg env fuel .autoReview r.1 r.2
      else graphRun cfg env fuel .finalize r.1 r.2
    | .autoReview =>
      let r := autoReviewNode env st tr
      if shouldFixDecision cfg r.1 then graphRun cfg env fuel .executeAgent r.1 r.2
      else graphRun cfg env fuel .finalize r.1 r.2
    | .finalize => some (.ok (finalizeNode st, tr))

/-- Initial state built by `handle`. -/
def initialGraphState (userMessage context agentName : String)
    (history : List (String × String)) : GraphState :=
  { user_message := userMessage, context := context,
    selected_agent := agentName, agent_response := none,
    conversation_history := history, needs_review := false,
    review_response := none, error := none, iteration := 0,
    clarification_context := "", needs_planning := false,
    plan_response := none, plan_approved := false, review_iteration := 0 }

/-- Response assembly at the end of `handle`: take the agent response (or
the fixed fallback), and when a non-empty review exists append it; the
rebuilt response drops the token usage exactly as the Python constructor
call does. -/
def assembleResponse (st : GraphState) : AgentResponse :=
  let response := st.agent_response.getD { content := "No response generated.", iterations := 0 }
  match st.review_response with
  | some review =>
    if review.content ≠ "" then
      { content := response.content ++ "\n\n---\n**Auto-Review:**\n" ++ review.content,
        tool_calls_made := response.tool_calls_made,
        iterations := response.iterations,
        model_used := response.model_used }
    else response
  | none => response

/-- Embedding of `GraphOrchestrator.handle`: run the graph from the initial
state and assemble the returned response.  The session-history append is a
side effect on the orchestrator, not on the returned value. -/
def handleGraph (cfg : OrchestratorConfig) (env : GraphEnv) (fuel : Nat)
    (userMessage : String) (agentName : String := "") (context : String := "")
    (history : List (String × String) := []) :
    Option (Except String (AgentResponse × GraphState × GraphTrace)) :=
  match graphRun cfg env fuel .preAnalyze
      (initialGraphState userMessage context agentName history) [] with
  | none => none
  | some (.error e) => some (.error e)
  | some (.ok (st, tr)) => some (.ok (assembleResponse st, st, tr))

/-! ## C6: the should-fix decision and the review-fix scenario -/

/-- Orchestrator configuration of the C6 scenario: defaults, in particular
`max_review_iterations = 2`. -/
def cfgC6 : OrchestratorConfig := {}

/-- Environment of the C6 scenario: router selects the coder with
`needs_review`; the coder always makes one write-tool call; the reviewer
reports a CRITICAL issue on pass 1 and NO_ISSUES_FOUND on pass 2. -/
def envC6 : GraphEnv :=
  { agentsList := ["coder", "planner", "reviewer"],
    routeDecision := { agent := "coder", needs_review := true, needs_planning := false },
    runAgent := fun name k _msg _ctx =>
      if name = "coder" then
        .ok { content := "coder output " ++ toString k,
              tool_calls_made := [{ tool := "file_write", args := [("path", "a.py")] }],
              iterations := 1 }
      else if name = "reviewer" then
        (if k = 0 then .ok { content := "Found a CRITICAL bug in a.py", iterations := 1 }
         else .ok { content := "NO_ISSUES_FOUND", iterations := 1 })
      else .ok { content := "plan", iterations := 1 } }

/-- C6.  (i) `_auto_review_node` increments `review_iteration` by exactly
one on every path.  (ii) The should-fix decision, evaluated after that
increment, routes back to the execute node iff a review response exists,
the incremented counter is still below `max_review_iterations`, the
stripped review text does not start with the NO_ISSUES_FOUND sentinel, and
the upper-cased text contains the literal substring "CRITICAL" or "HIGH";
with no review response it always finalizes.  (iii) Scenario: with
`max_review_iterations = 2`, a reviewer answering "CRITICAL" on pass 1 and
"NO_ISSUES_FOUND" on pass 2 makes the coder execute exactly twice, leaves
`review_iteration` at 2, and the final response carries the pass-2 coder
content with the pass-2 review appended. -/
theorem C6_should_fix_review_loop :
    (∀ (env : GraphEnv) (st : GraphState) (tr : GraphTrace),
      (autoReviewNode env st tr).1.review_iteration = st.review_iteration + 1) ∧
    (∀ (cfg : OrchestratorConfig) (st : GraphState),
      st.review_response = none → shouldFixDecision cfg st = false) ∧
    (∀ (cfg : OrchestratorConfig) (st : GraphState) (review : AgentResponse),
      st.review_response = some review →
      (shouldFixDecision cfg st = true ↔
        (st.review_iteration < cfg.max_review_iterations ∧
         pyStartsWith (pyStrip review.content) "NO_ISSUES_FOUND" = false ∧
         (strContains (pyUpper (pyStrip review.content)) "CRITICAL" = true ∨
          strContains (pyUpper (pyStrip review.content)) "HIGH" = true)))) ∧
    ((match handleGraph cfgC6 envC6 12 "fix the bug" "" "" [] with
      | some (.ok (r, st, tr)) =>
        some (countAgent tr "coder", st.review_iteration, r.content)
      | _ => none) =
      some (2, 2, "coder output 1\n\n---\n**Auto-Review:**\nNO_ISSUES_FOUND")) := by
  refine ⟨?_, ?_, ?_, ?_⟩
  · intro env st tr
    unfold autoReviewNode
    cases hrev : env.agentsList.contains "reviewer" with
    | false => simp
    | true =>
      simp only [Bool.not_true, Bool.false_eq_true, if_false]
      cases st.agent_response with
      | none => rfl
      | some ar =>
        dsimp only
        cases (callAgent env tr "reviewer" (reviewPrompt st ar) "").1 with
        | ok review => rfl
        | error e => rfl
  · intro cfg st hrr
    unfold shouldFixDecision
    rw [hrr]
  · intro cfg st review hrr
    unfold shouldFixDecision
    rw [hrr]
    dsimp only
    by_cases hmax : cfg.max_review_iterations ≤ st.review_iteration
    · rw [if_pos hmax]
      simp only [Bool.false_eq_true, false_iff]
      intro hcon
      obtain ⟨hlt, -⟩ := hcon
      omega
    · rw [if_neg hmax]
      have hlt : st.review_iteration < cfg.max_review_iterations :=
        Nat.lt_of_not_le hmax
      by_cases hsw : pyStartsWith (pyStrip review.content) "NO_ISSUES_FOUND" = true
      · rw [if_pos hsw]
        simp only [Bool.false_eq_true, false_iff]
        intro hcon
        rw [hcon.2.1] at hsw
        cases hsw
      · rw [if_neg hsw]
        constructor
        · intro hor
          exact ⟨hlt, by simpa using hsw, by simpa using hor⟩
        · intro hcon
          rcases hcon.2.2 with h | h <;> simp [h]
  · rfl

/-- C6 witness: the should-fix characterization applied at a concrete
state whose review says "One CRITICAL issue" with the counter at 1 of 2. -/
def stC6W : GraphState :=
  { initialGraphState "m" "" "coder" [] with
      review_response := some { content := "One CRITICAL issue", iterations := 1 },
      review_iteration := 1 }

theorem C6_should_fix_review_loop_witness :
    shouldFixDecision {} stC6W = true :=
  (C6_should_fix_review_loop.2.2.1 {} stC6W
    { content := "One CRITICAL issue", iterations := 1 } rfl).mpr
    (by refine ⟨by decide, by decide, Or.inl (by decide)⟩)

/-! ## C10: plan rejection bypasses execution -/

/-- Environment of the C10 scenario, parameterized by the planner's
response `p`: router flags planning for the coder, the clarification
handler always answers "Reject". -/
def envC10 (p : AgentResponse) : GraphEnv :=
  { agentsList := ["coder", "planner", "reviewer"],
    routeDecision := { agent := "coder", needs_review := false, needs_planning := true },
    clarHandler := some (fun _ _ _ => .ok "Reject"),
    runAgent := fun name _k _msg _ctx =>
      if name = "planner" then .ok p
      else .ok { content := "should not run", iterations := 1 } }

/-- C10.  For every planner response `p`, when the clarification handler
answers "Reject" at plan approval the workflow sets `plan_approved = false`
and goes straight to finalize: the coder is never invoked (zero coder
entries in the trace) and `handle` returns a response whose content is
exactly the planner's output. -/
theorem C10_plan_rejection_bypasses_coder (p : AgentResponse) :
    (match handleGraph {} (envC10 p) 12 "build feature" "" "" [] with
     | some (.ok (r, st, tr)) =>
       some (r.content, st.plan_approved, countAgent tr "coder",
             tr.map (fun t => t.1))
     | _ => none) =
      some (p.content, false, 0, ["planner"]) := by
  rfl

/-- C10 witness: the rejection scenario at a concrete planner response. -/
theorem C10_plan_rejection_bypasses_coder_witness :
    (match handleGraph {} (envC10 { content := "THE PLAN" }) 12
        "build feature" "" "" [] with
     | some (.ok (r, st, tr)) =>
       some (r.content, st.plan_approved, countAgent tr "coder",
             tr.map (fun t => t.1))
     | _ => none) =
      some ("THE PLAN", false, 0, ["planner"]) :=
  C10_plan_rejection_bypasses_coder { content := "THE PLAN" }

/-! ## C2 (amended): the node boundary, not `run`, converts exceptions -/

/-- Graph environment whose every agent run raises the router's
chain-exhaustion error. -/
def envC2G : GraphEnv :=
  { agentsList := ["coder"],
    routeDecision := { agent := "coder", needs_review := false, needs_planning := false },
    runAgent := fun _ _ _ _ => .error "All models failed. Last error: boom" }

/-- C2, amended.  `BaseAgent.run` itself propagates a model-call exception
to its caller (first conjunct: the embedded run returns `.error` when the
router exhausts its chain); the never-raises guarantee holds one level up,
at the workflow's execute-agent node boundary, which converts any exception
escaping `run` into an `AgentResponse` whose content describes the error
("Agent error: ...") with zero tool calls (second conjunct). -/
theorem C2_run_amended_node_boundary :
    ((agentRun cfgC2 envC2 5 "hi" "").1 =
      some (.error "All models failed. Last error: boom")) ∧
    (∀ (env : GraphEnv) (st : GraphState) (tr : GraphTrace) (e : String),
      env.agentsList.contains st.selected_agent = true →
      (∀ k msg ctx, env.runAgent st.selected_agent k msg ctx = .error e) →
      (executeAgentNode env st tr).1.agent_response =
        some { content := "Agent error: " ++ e, iterations := 0 } ∧
      (executeAgentNode env st tr).1.error = some e) := by
  constructor
  · rfl
  · intro env st tr e hreg hfail
    unfold executeAgentNode callAgent
    simp only [hreg, Bool.not_true, Bool.false_eq_true, if_false]
    rw [hfail]
    exact ⟨rfl, rfl⟩

/-- C2 amended, witness: the node-boundary conversion applied at a concrete
state and failing environment. -/
theorem C2_run_amended_node_boundary_witness :
    (executeAgentNode envC2G (initialGraphState "hi" "" "coder" []) []).1.agent_response =
      some { content := "Agent error: All models failed. Last error: boom",
             iterations := 0 } :=
  (C2_run_amended_node_boundary.2 envC2G (initialGraphState "hi" "" "coder" []) []
    "All models failed. Last error: boom" rfl (fun _ _ _ => rfl)).1

end Lidco
